import Mathlib

/-!
Verification of the GoshawkDB-style distributed object store core.

Shallow embedding of the Go sources: each Lean definition mirrors one Go
function or state-machine fragment; machine integers appear as `Nat` where
the code performs no overflowing arithmetic on them.
-/

namespace Server

theorem list_contains_iff_mem {α : Type} [BEq α] [LawfulBEq α] (l : List α) (x : α) :
    l.contains x = true ↔ x ∈ l := List.elem_iff


/-! ## Version cache: mergeOnlies (src/client/versioncache.go)

The repository carries two copies of `mergeOnlies`.  The first
(versioncache.go lines 553-577) keeps the head of `a` when the heads are
equal; the second (lines 1036-1064, inlined in the `capn.UInt32List`
builder) keeps the head of `b`.  Both merge two ascending `uint32` lists.
The `uint32` values are only compared, never operated on arithmetically,
so they are modelled as `Nat`. -/

namespace Client

def mergeOnlies : List Nat → List Nat → List Nat
  | [], b => b
  | aIndex :: a, [] => aIndex :: a
  | aIndex :: a, bIndex :: b =>
    if aIndex < bIndex then aIndex :: mergeOnlies a (bIndex :: b)
    else if aIndex > bIndex then bIndex :: mergeOnlies (aIndex :: a) b
    else aIndex :: mergeOnlies a b
  termination_by a b => a.length + b.length

/-- The second copy of `mergeOnlies` (it feeds `seg.NewUInt32List`); on equal
heads it appends `bIndex` where the first copy appends `aIndex`. -/
def mergeOnliesV2 : List Nat → List Nat → List Nat
  | [], b => b
  | aIndex :: a, [] => aIndex :: a
  | aIndex :: a, bIndex :: b =>
    if aIndex < bIndex then aIndex :: mergeOnliesV2 a (bIndex :: b)
    else if aIndex > bIndex then bIndex :: mergeOnliesV2 (aIndex :: a) b
    else bIndex :: mergeOnliesV2 a b
  termination_by a b => a.length + b.length

theorem mergeOnlies_nil_left (b : List Nat) : mergeOnlies [] b = b := by
  cases b <;> simp [mergeOnlies]

theorem mergeOnlies_mem : ∀ (a b : List Nat) (x : Nat),
    x ∈ mergeOnlies a b ↔ x ∈ a ∨ x ∈ b := by
  intro a b
  induction a, b using mergeOnlies.induct with
  | case1 b => intro x; simp [mergeOnlies]
  | case2 aIndex a => intro x; simp [mergeOnlies]
  | case3 aIndex a bIndex b hlt ih =>
    intro x
    simp only [mergeOnlies, if_pos hlt, List.mem_cons, ih]
    tauto
  | case4 aIndex a bIndex b hnlt hgt ih =>
    intro x
    simp only [mergeOnlies, if_neg hnlt, if_pos hgt, List.mem_cons, ih]
    tauto
  | case5 aIndex a bIndex b hnlt hngt ih =>
    intro x
    have heq : aIndex = bIndex := le_antisymm (not_lt.mp hngt) (not_lt.mp hnlt)
    simp only [mergeOnlies, if_neg hnlt, if_neg hngt, List.mem_cons, ih]
    subst heq
    tauto

theorem mergeOnlies_sorted : ∀ (a b : List Nat),
    List.Sorted (· < ·) a → List.Sorted (· < ·) b →
    List.Sorted (· < ·) (mergeOnlies a b) := by
  intro a b
  induction a, b using mergeOnlies.induct with
  | case1 b => intro _ hb; simpa [mergeOnlies] using hb
  | case2 aIndex a => intro ha _; simpa [mergeOnlies] using ha
  | case3 aIndex a bIndex b hlt ih =>
    intro ha hb
    rw [List.sorted_cons] at ha
    simp only [mergeOnlies, if_pos hlt, List.sorted_cons]
    refine ⟨?_, ih ha.2 hb⟩
    intro y hy
    rcases (mergeOnlies_mem a (bIndex :: b) y).mp hy with h | h
    · exact ha.1 y h
    · rcases List.mem_cons.mp h with rfl | h
      · exact hlt
      · exact lt_trans hlt ((List.sorted_cons.mp hb).1 y h)
  | case4 aIndex a bIndex b hnlt hgt ih =>
    intro ha hb
    rw [List.sorted_cons] at hb
    simp only [mergeOnlies, if_neg hnlt, if_pos hgt, List.sorted_cons]
    refine ⟨?_, ih ha hb.2⟩
    intro y hy
    rcases (mergeOnlies_mem (aIndex :: a) b y).mp hy with h | h
    · rcases List.mem_cons.mp h with rfl | h
      · exact hgt
      · exact lt_trans hgt ((List.sorted_cons.mp ha).1 y h)
    · exact hb.1 y h
  | case5 aIndex a bIndex b hnlt hngt ih =>
    intro ha hb
    have heq : aIndex = bIndex := le_antisymm (not_lt.mp hngt) (not_lt.mp hnlt)
    rw [List.sorted_cons] at ha hb
    simp only [mergeOnlies, if_neg hnlt, if_neg hngt, List.sorted_cons]
    refine ⟨?_, ih ha.2 hb.2⟩
    intro y hy
    rcases (mergeOnlies_mem a b y).mp hy with h | h
    · exact ha.1 y h
    · exact heq ▸ hb.1 y h

theorem mergeOnliesV2_eq : ∀ (a b : List Nat), mergeOnliesV2 a b = mergeOnlies a b := by
  intro a b
  induction a, b using mergeOnlies.induct with
  | case1 b => cases b <;> simp [mergeOnlies, mergeOnliesV2]
  | case2 aIndex a => simp [mergeOnlies, mergeOnliesV2]
  | case3 aIndex a bIndex b hlt ih =>
    simp only [mergeOnlies, mergeOnliesV2, if_pos hlt, ih]
  | case4 aIndex a bIndex b hnlt hgt ih =>
    simp only [mergeOnlies, mergeOnliesV2, if_neg hnlt, if_pos hgt, ih]
  | case5 aIndex a bIndex b hnlt hngt ih =>
    have heq : aIndex = bIndex := le_antisymm (not_lt.mp hngt) (not_lt.mp hnlt)
    subst heq
    simp [mergeOnlies, mergeOnliesV2, ih]

end Client

/-! ## Ballots (src/txnengine/ballot.go)

The capnp wire form of a ballot is modelled by `BallotCap`: exactly the
fields `buildSeg`, `ToBallot` and `CreateBadReadBallot` write and
`BallotFromData` reads.  Vector-clock data (`Clock.AsData()`) is modelled
as the association list of (var, element) pairs; `AsData` of a nil clock is
the empty list.  TxnIds and VarUUIds are byte strings, modelled as
`List Nat`. -/

namespace TxnEngine

/-- The serialized `msgs.Vote`: commit, abort-deadlock, or abort-bad-read
carrying the conflicting txn's id and its actions data. -/
inductive VoteData
  | commit
  | abortDeadlock
  | abortBadRead (txnId : List Nat) (txnActions : List Nat)
deriving DecidableEq

/-- `Vote` (ballot.go lines 12-18): the enum of `voteCap.Which()`. -/
inductive Vote
  | Commit
  | AbortBadRead
  | AbortDeadlock
deriving DecidableEq

/-- `Vote(voteCap.Which())`. -/
def VoteData.which : VoteData → Vote
  | .commit => .Commit
  | .abortDeadlock => .AbortDeadlock
  | .abortBadRead _ _ => .AbortBadRead

/-- The serialized `msgs.Ballot` root: varId, clock data, subscribers list
and the vote. -/
structure BallotCap where
  varId : List Nat
  clock : List (Nat × Nat)
  subscribers : List (List Nat)
  vote : VoteData
deriving DecidableEq

/-- `Ballot` (ballot.go lines 42-49).  `Data` holds the decoded form of the
serialized bytes. -/
structure Ballot where
  VarUUId : List Nat
  Data : Option BallotCap
  VoteCap : Option VoteData
  Clock : Option (List (Nat × Nat))
  Subscribers : List (List Nat)
  Vote : Vote
deriving DecidableEq

/-- `BallotFromData` (ballot.go lines 55-76).  The source decodes the
subscribers into a local `subs` slice but the returned `Ballot` literal does
not assign it to the `Subscribers` field, so the decoded ballot's
`Subscribers` is nil. -/
def BallotFromData (data : BallotCap) : Ballot :=
  let _subs := data.subscribers
  { VarUUId := data.varId
    Data := some data
    VoteCap := some data.vote
    Clock := some data.clock
    Subscribers := []
    Vote := data.vote.which }

/-- `BallotBuilder` (ballot.go lines 82-97): a `Ballot` under construction
plus the mutable clock (`none` models a nil clock). -/
structure BallotBuilder where
  VarUUId : List Nat
  Vote : Vote
  Subscribers : List (List Nat)
  VoteCap : Option VoteData
  Clock : Option (List (Nat × Nat))
deriving DecidableEq

def NewBallotBuilder (vUUId : List Nat) (vote : Vote)
    (clock : Option (List (Nat × Nat))) (subscriberIds : List (List Nat)) :
    BallotBuilder :=
  { VarUUId := vUUId, Vote := vote, Subscribers := subscriberIds,
    VoteCap := none, Clock := clock }

/-- `Clock.AsData()`: a nil clock serializes to empty clock data. -/
def clockAsData : Option (List (Nat × Nat)) → List (Nat × Nat)
  | none => []
  | some c => c

/-- `BallotBuilder.ToBallot` (ballot.go lines 129-148): `buildSeg` writes
varId, clock data and subscribers into the capnp segment, then a vote cap is
created from the builder's vote unless one is already present;
`AbortBadRead` with no vote cap panics. -/
def ToBallot (bb : BallotBuilder) : Except String Ballot :=
  let clockData := clockAsData bb.Clock
  match bb.VoteCap with
  | some vc =>
    .ok { VarUUId := bb.VarUUId
          Data := some { varId := bb.VarUUId, clock := clockData,
                         subscribers := bb.Subscribers, vote := vc }
          VoteCap := some vc
          Clock := some clockData
          Subscribers := bb.Subscribers
          Vote := bb.Vote }
  | none =>
    match bb.Vote with
    | .AbortBadRead => .error "ToBallot called for Abort Badread vote"
    | v =>
      let vc : VoteData := match v with
        | .Commit => .commit
        | _ => .abortDeadlock
      .ok { VarUUId := bb.VarUUId
            Data := some { varId := bb.VarUUId, clock := clockData,
                           subscribers := bb.Subscribers, vote := vc }
            VoteCap := some vc
            Clock := some clockData
            Subscribers := bb.Subscribers
            Vote := bb.Vote }

/-- `BallotBuilder.CreateBadReadBallot` (ballot.go lines 114-127). -/
def CreateBadReadBallot (bb : BallotBuilder) (txnId : List Nat)
    (actions : List Nat) : Ballot :=
  let clockData := clockAsData bb.Clock
  let vc : VoteData := .abortBadRead txnId actions
  { VarUUId := bb.VarUUId
    Data := some { varId := bb.VarUUId, clock := clockData,
                   subscribers := bb.Subscribers, vote := vc }
    VoteCap := some vc
    Clock := some clockData
    Subscribers := bb.Subscribers
    Vote := .AbortBadRead }

end TxnEngine

/-- C7: encode-then-decode of a ballot is NOT the identity on the
`Subscribers` list.  Evaluating the code at the failing input - a commit
ballot built with one subscriber - shows `ToBallot` records the subscriber
both in the ballot and in its serialized data, while `BallotFromData` on
that same data returns a ballot with empty `Subscribers` (the source decodes
them into `subs` and then never assigns the slice), though VarUUId, Vote and
Clock do round-trip. -/
theorem C7_ballot_subscribers_lost :
    TxnEngine.ToBallot
        { VarUUId := [1], Vote := TxnEngine.Vote.Commit, Subscribers := [[7]],
          VoteCap := none, Clock := some [(1, 2)] } =
      Except.ok
        { VarUUId := [1],
          Data := some { varId := [1], clock := [(1, 2)], subscribers := [[7]],
                         vote := TxnEngine.VoteData.commit },
          VoteCap := some TxnEngine.VoteData.commit,
          Clock := some [(1, 2)], Subscribers := [[7]],
          Vote := TxnEngine.Vote.Commit }
    ∧ TxnEngine.BallotFromData
        { varId := [1], clock := [(1, 2)], subscribers := [[7]],
          vote := TxnEngine.VoteData.commit } =
      { VarUUId := [1],
        Data := some { varId := [1], clock := [(1, 2)], subscribers := [[7]],
                       vote := TxnEngine.VoteData.commit },
        VoteCap := some TxnEngine.VoteData.commit,
        Clock := some [(1, 2)], Subscribers := [],
        Vote := TxnEngine.Vote.Commit } :=
  ⟨rfl, rfl⟩

/-! ## Version cache: UpdateFromCommit (src/client/versioncache.go)

Both copies of `UpdateFromCommit` are embedded: `Client.V1.UpdateFromCommit`
(lines 240-280) and `Client.V2.UpdateFromCommit` (lines 848-870).
VarUUIds and TxnIds are modelled as `Nat`; the commit outcome's clock is the
function `clock`. -/

namespace Client

inductive ActionType
  | read | write | readwrite | create | roll | missing
deriving DecidableEq

/-- A reference (`msgs.VarIdPos`) carried by a write/create action. -/
structure VarIdPos where
  id : Nat
  positions : List Nat
deriving DecidableEq

/-- The slice of a `msgs.Action` that `UpdateFromCommit` consults. -/
structure Action where
  varId : Nat
  which : ActionType
  value : List Nat
  references : List VarIdPos
deriving DecidableEq

/-- Capabilities as stored in a `cached` entry; `maxCapsCap` is the
distinguished read-write-all value, other capabilities are opaque here. -/
inductive Capabilities
  | maxCapsCap
  | caps (value : Nat)
deriving DecidableEq

/-- `cached` (versioncache.go lines 15-21). -/
structure Cached where
  txnId : Option Nat
  clockElem : Nat
  caps : Option Capabilities
  value : List Nat
  references : List VarIdPos
deriving DecidableEq

/-- `versionCache`: the Go map modelled as an association list. -/
def versionCache := List (Nat × Cached)

def vcFind (vc : versionCache) (v : Nat) : Option Cached :=
  (List.find? (fun p => p.1 == v) vc).map (fun p => p.2)

def vcInsert (vc : versionCache) (v : Nat) (c : Cached) : versionCache :=
  match vc with
  | [] => [(v, c)]
  | p :: rest => if p.1 == v then (v, c) :: rest else p :: vcInsert rest v c

namespace V1

/-- One iteration of the first copy's loop (versioncache.go lines 244-278).
For a non-read action: if the action is a create on an absent var, a fresh
`cached` entry is inserted - but the trailing `switch act` has no CREATE
case and panics; every other non-read action falls into the
`else { panic }` branch.  The WRITE/READWRITE arms of the switch are
unreachable. -/
def updateFromCommitAction (txnId : Nat) (clock : Nat → Nat)
    (vc : versionCache) (action : Action) : Except String versionCache :=
  if action.which = .read then .ok vc
  else
    match vcFind vc action.varId, action.which with
    | none, .create =>
      let c : Cached := { txnId := some txnId, clockElem := clock action.varId,
                          caps := some .maxCapsCap, value := action.value,
                          references := action.references }
      let vc := vcInsert vc action.varId c
      match action.which with
      | .write => .ok (vcInsert vc action.varId
          { c with value := action.value, references := action.references })
      | .readwrite => .ok (vcInsert vc action.varId
          { c with value := action.value, references := action.references })
      | _ => .error "Unexpected action type on txn commit!"
    | _, _ => .error "contained illegal action"

/-- `versionCache.UpdateFromCommit`, first copy (lines 240-280). -/
def UpdateFromCommit (vc : versionCache) (txnId : Nat) (clock : Nat → Nat)
    (actions : List Action) : Except String versionCache :=
  actions.foldlM (fun vc a => updateFromCommitAction txnId clock vc a) vc

end V1

namespace V2

/-- One iteration of the second copy's loop (versioncache.go lines 852-869):
a non-read action on a var already in the cache overwrites the entry's
`txnId` and `clockElem` only (value and references are left as they were);
a create on an absent var inserts an entry with `maxCapsCap` and no value or
references; any other non-read action on an absent var panics. -/
def updateFromCommitAction (txnId : Nat) (clock : Nat → Nat)
    (vc : versionCache) (action : Action) : Except String versionCache :=
  if action.which = .read then .ok vc
  else
    match vcFind vc action.varId with
    | some c => .ok (vcInsert vc action.varId
        { c with txnId := some txnId, clockElem := clock action.varId })
    | none =>
      if action.which = .create then
        .ok (vcInsert vc action.varId
          { txnId := some txnId, clockElem := clock action.varId,
            caps := some .maxCapsCap, value := [], references := [] })
      else
        .error "contained action for unknown var"

/-- `versionCache.UpdateFromCommit`, second copy (lines 848-870). -/
def UpdateFromCommit (vc : versionCache) (txnId : Nat) (clock : Nat → Nat)
    (actions : List Action) : Except String versionCache :=
  actions.foldlM (fun vc a => updateFromCommitAction txnId clock vc a) vc

end V2

end Client

/-- C6: evaluating both copies of `UpdateFromCommit` at the failing input -
a committed transaction carrying a single Write action on a var already
present in the cache.  The first copy panics ("contained illegal action":
its `else` branch fires for every non-create action, leaving the
WRITE/READWRITE switch arms dead); the second copy completes but records
only the committing txnId and clock element, leaving the cached value and
references untouched, so reading the var back does not yield the written
value.  Both contradict the claim and the spec's round-trip law. -/
theorem C6_updateFromCommit_diverges :
    Client.V1.UpdateFromCommit
        [(5, { txnId := some 1, clockElem := 1, caps := some (.caps 0),
               value := [9], references := [] })] 2 (fun _ => 2)
        [{ varId := 5, which := .write, value := [4],
           references := [{ id := 6, positions := [0] }] }] =
      Except.error "contained illegal action"
    ∧ Client.V2.UpdateFromCommit
        [(5, { txnId := some 1, clockElem := 1, caps := some (.caps 0),
               value := [9], references := [] })] 2 (fun _ => 2)
        [{ varId := 5, which := .write, value := [4],
           references := [{ id := 6, positions := [0] }] }] =
      Except.ok
        [(5, { txnId := some 2, clockElem := 2, caps := some (.caps 0),
               value := [9], references := [] })] :=
  ⟨rfl, rfl⟩

/-! ## Acceptor state machine (src/paxos/acceptor.go)

The acceptor is a four-state machine
`ReceiveBallots -> WriteToDisk -> AwaitLocallyComplete -> DeleteFromDisk`
whose handlers run on a single executor.  Disk operations are split into a
scheduling half (the `start` of a state, which captures the outcome in a
closure) and a completion half (`writeDone` / `deletionDone`) delivered
later; `writesIssued` records the scheduled 2B writes and `deletesIssued`
counts scheduled deletions.  The ballot accumulator is an external
collaborator: `BallotAccepted` is modelled as a function of the outcome
that `ballotAccumulator.BallotReceived` returns for the incoming ballot. -/

namespace Paxos

/-- `currentState`; `done` models the nil state after `deletionDone`. -/
inductive AcceptorState
  | receiveBallots
  | writeToDisk
  | awaitLocallyComplete
  | deleteFromDisk
  | done
deriving DecidableEq

/-- An outcome as compared by `outcomeEqualId.Equal` (outcomes agree on
commit-vs-abort and on the commit clock / abort evidence, the latter
abstracted as `payload`).  `writeDone` compares outcome pointers in Go, but
`BallotAccepted` reassigns `arb.outcome` only to a non-`Equal` outcome, so
pointer equality there coincides with this value equality. -/
structure Outcome where
  isCommit : Bool
  payload : Nat
deriving DecidableEq

/-- The slice of a `msgs.Allocation` the acceptor consults:
`active` is `alloc.Active() != 0`. -/
structure AcceptorAlloc where
  rmId : Nat
  active : Bool
deriving DecidableEq

/-- Immutable per-acceptor context: the txn's allocations, the topology's
`RMsRemoved` (empty when the manager has no topology), the submitter's RMId
(`txn.Id.RMId`) and this node's RMId. -/
structure AcceptorEnv where
  allocs : List AcceptorAlloc
  rmsRemoved : List Nat
  txnSubmitter : Nat
  selfRMId : Nat
deriving DecidableEq

/-- The acceptor's mutable fields relevant to ballots, disk writes and
TLC/TSC waiting.  `writesIssued` records each 2B disk write scheduled by
`acceptorWriteToDisk.start` (outcome and sendToAll flag as captured by the
completion closure); `deletesIssued` counts the deletions scheduled by
`acceptorDeleteFromDisk.start`. -/
structure Acc where
  state : AcceptorState
  outcome : Option Outcome
  sendToAll : Bool
  outcomeOnDisk : Option Outcome
  sendToAllOnDisk : Bool
  pendingTLC : List Nat
  tlcsReceived : List Nat
  tgcRecipients : List Nat
  tscReceived : Bool
  writesIssued : List (Outcome × Bool)
  deletesIssued : Nat
deriving DecidableEq

/-- `NewAcceptor` followed by `Start` with no outcome on disk:
`currentState = acceptorReceiveBallots`, everything else zero. -/
def newAcceptor : Acc :=
  { state := .receiveBallots, outcome := none, sendToAll := false,
    outcomeOnDisk := none, sendToAllOnDisk := false, pendingTLC := [],
    tlcsReceived := [], tgcRecipients := [], tscReceived := false,
    writesIssued := [], deletesIssued := 0 }

/-- `acceptorWriteToDisk.start` (acceptor.go lines 248-284): `sendToAll`
becomes sticky-true on a commit outcome, and the 2B disk write is scheduled
with the current outcome and flag captured in the completion closure.
(The state is entered only with an outcome set; `none` is dead.) -/
def acceptorWriteToDiskStart (a : Acc) : Acc :=
  match a.outcome with
  | none => a
  | some outcome =>
    { a with
      sendToAll := a.sendToAll || outcome.isCommit
      writesIssued := a.writesIssued ++ [(outcome, a.sendToAll || outcome.isCommit)] }

/-- `acceptorDeleteFromDisk.start` (lines 438-456): schedules the deletion
of the persisted 2B record. -/
def acceptorDeleteFromDiskStart (a : Acc) : Acc :=
  { a with deletesIssued := a.deletesIssued + 1 }

/-- `acceptorAwaitLocallyComplete.maybeDelete` (lines 422-426). -/
def maybeDelete (a : Acc) : Acc :=
  if a.state = .awaitLocallyComplete ∧ a.tscReceived = true ∧ a.pendingTLC = [] then
    acceptorDeleteFromDiskStart { a with state := .deleteFromDisk }
  else a

/-- The field rebuild of `acceptorAwaitLocallyComplete.start` (lines
341-367): `pendingTLC` and `tgcRecipients` are recomputed from the
allocations (skipping RMs in `rmsRemoved`, keeping active ones or all when
`sendToAllOnDisk`; RMs whose TLC already arrived are not pending), and a
removed submitter counts as TSC received. -/
def acceptorAwaitLocallyCompleteFields (env : AcceptorEnv) (a : Acc) : Acc :=
  { a with
    state := .awaitLocallyComplete
    pendingTLC := ((env.allocs.filter (fun al =>
      !(env.rmsRemoved.contains al.rmId) && (a.sendToAllOnDisk || al.active))).filter
        (fun al => !(a.tlcsReceived.contains al.rmId))).map (fun al => al.rmId)
    tgcRecipients := (env.allocs.filter (fun al =>
      !(env.rmsRemoved.contains al.rmId) && (a.sendToAllOnDisk || al.active))).map
        (fun al => al.rmId)
    tscReceived := a.tscReceived || env.rmsRemoved.contains env.txnSubmitter }

/-- `acceptorAwaitLocallyComplete.start` (lines 320-377): after the field
rebuild, when nothing is outstanding the machine deletes at once
(`maybeDelete` re-checks exactly the guard the Go code tests inline);
otherwise the registered 2B sender does not touch these fields. -/
def acceptorAwaitLocallyCompleteStart (env : AcceptorEnv) (a : Acc) : Acc :=
  maybeDelete (acceptorAwaitLocallyCompleteFields env a)

/-- `acceptorWriteToDisk.writeDone` (lines 291-300): the completion wins
only if the written outcome is still the current one and the machine is
still in `WriteToDisk`; it then records `outcomeOnDisk` and
`sendToAllOnDisk` and advances (`nextState(nil)` enters
`AwaitLocallyComplete` and runs its `start`). -/
def writeDone (env : AcceptorEnv) (w : Outcome × Bool) (a : Acc) : Acc :=
  if a.outcome = some w.1 ∧ a.state = .writeToDisk then
    acceptorAwaitLocallyCompleteStart env
      { a with outcomeOnDisk := some w.1, sendToAllOnDisk := w.2 }
  else a

/-- `acceptorReceiveBallots.BallotAccepted` (lines 177-189): the incoming
ballot is handed to the accumulator in every state (in `DeleteFromDisk` an
error is merely logged first); `accOutcome` is the outcome
`ballotAccumulator.BallotReceived` returns.  When it is non-nil and not
`Equal` to the current outcome, the acceptor stores it and re-enters
`WriteToDisk`, whose `start` schedules the new disk write. -/
def BallotAccepted (accOutcome : Option Outcome) (a : Acc) : Acc :=
  match accOutcome with
  | some o =>
    if some o ≠ a.outcome then
      acceptorWriteToDiskStart { a with outcome := some o, state := .writeToDisk }
    else a
  | none => a

/-- `aalc.tlcsReceived[sender] = types.EmptyStructVal` (the map-insert of
line 385). -/
def tlcInsert (sender : Nat) (a : Acc) : Acc :=
  { a with tlcsReceived :=
      if a.tlcsReceived.contains sender then a.tlcsReceived
      else a.tlcsReceived ++ [sender] }

/-- `acceptorAwaitLocallyComplete.TxnLocallyCompleteReceived` (384-390):
the sender is recorded in `tlcsReceived` and, while awaiting local
completion, removed from `pendingTLC` before `maybeDelete`. -/
def TxnLocallyCompleteReceived (sender : Nat) (a : Acc) : Acc :=
  if (tlcInsert sender a).state = .awaitLocallyComplete then
    maybeDelete { tlcInsert sender a with
      pendingTLC := (tlcInsert sender a).pendingTLC.filter (fun r => r ≠ sender) }
  else tlcInsert sender a

/-- `acceptorAwaitLocallyComplete.TxnSubmissionCompleteReceived` (392-398). -/
def TxnSubmissionCompleteReceived (a : Acc) : Acc :=
  if a.tscReceived then a
  else maybeDelete { a with tscReceived := true }

/-- `acceptorAwaitLocallyComplete.TopologyChanged` (400-420): a change that
removes this node is ignored; otherwise removed RMs are dropped from
`tgcRecipients` and fed through `TxnLocallyCompleteReceived`, and finally a
removed submitter counts as its `TxnSubmissionComplete` (the Go code
computes the filter and fold before the submitter check; the two `if`
branches here share that prefix). -/
def AcceptorTopologyChanged (env : AcceptorEnv) (removed : List Nat) (a : Acc) : Acc :=
  if removed.contains env.selfRMId then a
  else if removed.contains env.txnSubmitter then
    TxnSubmissionCompleteReceived
      (removed.foldl (fun acc rm => TxnLocallyCompleteReceived rm acc)
        { a with tgcRecipients := a.tgcRecipients.filter (fun r => !(removed.contains r)) })
  else
    removed.foldl (fun acc rm => TxnLocallyCompleteReceived rm acc)
      { a with tgcRecipients := a.tgcRecipients.filter (fun r => !(removed.contains r)) }

/-- `acceptorDeleteFromDisk.deletionDone` (463-479): if still current, the
machine moves to the nil state (and sends the TGCs). -/
def deletionDone (a : Acc) : Acc :=
  if a.state = .deleteFromDisk then { a with state := .done } else a

/-- The events delivered to one acceptor by its executor.  A disk-write
completion can only be delivered for a write that was scheduled. -/
inductive AcceptorEvent
  | ballot (accOutcome : Option Outcome)
  | diskWriteDone (w : Outcome × Bool)
  | tlc (sender : Nat)
  | tsc
  | topology (removed : List Nat)
  | diskDeleteDone

def acceptorStep (env : AcceptorEnv) (e : AcceptorEvent) (a : Acc) : Acc :=
  match e with
  | .ballot r => BallotAccepted r a
  | .diskWriteDone w => if w ∈ a.writesIssued then writeDone env w a else a
  | .tlc s => TxnLocallyCompleteReceived s a
  | .tsc => TxnSubmissionCompleteReceived a
  | .topology removed => AcceptorTopologyChanged env removed a
  | .diskDeleteDone => deletionDone a

/-- States reachable from a freshly created acceptor. -/
inductive AcceptorReachable (env : AcceptorEnv) : Acc → Prop
  | start : AcceptorReachable env newAcceptor
  | step {a : Acc} (e : AcceptorEvent) :
      AcceptorReachable env a → AcceptorReachable env (acceptorStep env e a)

/-- The transition-guard property for C2: a step enters `DeleteFromDisk`
only with `pendingTLC` empty and `tscReceived`, a deletion is scheduled
only then, and once in `DeleteFromDisk` these fields are stable. -/
def stepGuard (x y : Acc) : Prop :=
  (y.state = .deleteFromDisk →
    x.state = .deleteFromDisk ∨ (y.pendingTLC = [] ∧ y.tscReceived = true))
  ∧ (y.deletesIssued ≠ x.deletesIssued →
    y.state = .deleteFromDisk ∧ y.pendingTLC = [] ∧ y.tscReceived = true)
  ∧ (x.state = .deleteFromDisk →
    y.state = .deleteFromDisk ∧ y.pendingTLC = x.pendingTLC
      ∧ (x.tscReceived = true → y.tscReceived = true))

theorem stepGuard_rfl (x : Acc) : stepGuard x x :=
  ⟨fun h => Or.inl h, fun h => absurd rfl h, fun h => ⟨h, rfl, fun h' => h'⟩⟩

theorem stepGuard_comp {x y z : Acc} (hxy : stepGuard x y) (hyz : stepGuard y z) :
    stepGuard x z := by
  obtain ⟨p1, p2, p3⟩ := hxy
  obtain ⟨q1, q2, q3⟩ := hyz
  refine ⟨?_, ?_, ?_⟩
  · intro hz
    rcases q1 hz with hy | hg
    · rcases p1 hy with hx | hg'
      · exact Or.inl hx
      · obtain ⟨hzs, hzp, hzt⟩ := q3 hy
        exact Or.inr ⟨hzp.trans hg'.1, hzt hg'.2⟩
    · exact Or.inr hg
  · intro hz
    by_cases hzy : z.deletesIssued = y.deletesIssued
    · have hyx : y.deletesIssued ≠ x.deletesIssued := fun h => hz (hzy.trans h)
      obtain ⟨hys, hyp, hyt⟩ := p2 hyx
      obtain ⟨hzs, hzp, hzt⟩ := q3 hys
      exact ⟨hzs, hzp.trans hyp, hzt hyt⟩
    · exact q2 hzy
  · intro hx
    obtain ⟨hys, hyp, hyt⟩ := p3 hx
    obtain ⟨hzs, hzp, hzt⟩ := q3 hys
    exact ⟨hzs, hzp.trans hyp, fun h => hzt (hyt h)⟩

theorem maybeDelete_stepGuard (a : Acc) : stepGuard a (maybeDelete a) := by
  unfold maybeDelete acceptorDeleteFromDiskStart
  split_ifs with h
  · refine ⟨fun _ => Or.inr ⟨h.2.2, h.2.1⟩, fun _ => ⟨rfl, h.2.2, h.2.1⟩, ?_⟩
    intro hx
    rw [h.1] at hx
    cases hx
  · exact stepGuard_rfl a

theorem maybeDelete_enters (c : Acc) (hc : c.state ≠ .deleteFromDisk) :
    ((maybeDelete c).state = .deleteFromDisk →
      (maybeDelete c).pendingTLC = [] ∧ (maybeDelete c).tscReceived = true)
    ∧ ((maybeDelete c).deletesIssued ≠ c.deletesIssued →
      (maybeDelete c).state = .deleteFromDisk
        ∧ (maybeDelete c).pendingTLC = [] ∧ (maybeDelete c).tscReceived = true) := by
  unfold maybeDelete acceptorDeleteFromDiskStart
  split_ifs with h
  · exact ⟨fun _ => ⟨h.2.2, h.2.1⟩, fun _ => ⟨rfl, h.2.2, h.2.1⟩⟩
  · exact ⟨fun hz => absurd hz hc, fun hz => absurd rfl hz⟩

theorem tlc_stepGuard (s : Nat) (a : Acc) :
    stepGuard a (TxnLocallyCompleteReceived s a) := by
  have hst : (tlcInsert s a).state = a.state := rfl
  unfold TxnLocallyCompleteReceived
  split_ifs with h
  · have hpre : stepGuard a
        { tlcInsert s a with
          pendingTLC := (tlcInsert s a).pendingTLC.filter (fun r => r ≠ s) } := by
      refine ⟨fun hz => Or.inl hz, fun hz => absurd rfl hz, ?_⟩
      intro hx
      rw [hst] at h
      rw [h] at hx
      cases hx
    exact stepGuard_comp hpre (maybeDelete_stepGuard _)
  · exact ⟨fun hz => Or.inl hz, fun hz => absurd rfl hz,
      fun hx => ⟨hx, rfl, fun h' => h'⟩⟩

theorem tsc_stepGuard (a : Acc) : stepGuard a (TxnSubmissionCompleteReceived a) := by
  unfold TxnSubmissionCompleteReceived
  split_ifs with h
  · exact stepGuard_rfl a
  · have hpre : stepGuard a { a with tscReceived := true } :=
      ⟨fun hz => Or.inl hz, fun hz => absurd rfl hz,
        fun hx => ⟨hx, rfl, fun _ => rfl⟩⟩
    exact stepGuard_comp hpre (maybeDelete_stepGuard _)

theorem foldl_tlc_stepGuard (l : List Nat) (x : Acc) :
    stepGuard x (l.foldl (fun acc rm => TxnLocallyCompleteReceived rm acc) x) := by
  induction l generalizing x with
  | nil => exact stepGuard_rfl x
  | cons hd tl ih =>
    exact stepGuard_comp (tlc_stepGuard hd x) (ih (TxnLocallyCompleteReceived hd x))

theorem tgcFilter_stepGuard (removed : List Nat) (a : Acc) :
    stepGuard a { a with tgcRecipients :=
      a.tgcRecipients.filter (fun r => !(removed.contains r)) } :=
  ⟨fun hz => Or.inl hz, fun hz => absurd rfl hz,
    fun hx => ⟨hx, rfl, fun h' => h'⟩⟩

theorem aalcStart_enters (env : AcceptorEnv) (b : Acc) :
    ((acceptorAwaitLocallyCompleteStart env b).state = .deleteFromDisk →
      (acceptorAwaitLocallyCompleteStart env b).pendingTLC = []
        ∧ (acceptorAwaitLocallyCompleteStart env b).tscReceived = true)
    ∧ ((acceptorAwaitLocallyCompleteStart env b).deletesIssued ≠ b.deletesIssued →
      (acceptorAwaitLocallyCompleteStart env b).state = .deleteFromDisk
        ∧ (acceptorAwaitLocallyCompleteStart env b).pendingTLC = []
        ∧ (acceptorAwaitLocallyCompleteStart env b).tscReceived = true) := by
  have hne : (acceptorAwaitLocallyCompleteFields env b).state ≠ .deleteFromDisk := by
    intro hc
    cases hc
  have hd : (acceptorAwaitLocallyCompleteFields env b).deletesIssued = b.deletesIssued := rfl
  have he := maybeDelete_enters (acceptorAwaitLocallyCompleteFields env b) hne
  exact ⟨he.1, fun hz => he.2 (fun hc => hz (hc.trans hd))⟩

/-- C2: a transition of the acceptor enters `DeleteFromDisk` only when, at
that moment, `pendingTLC` is empty and `tscReceived` holds; and a deletion
of the persisted outcome is scheduled (`deletesIssued` grows) only in that
same situation - never while some 2B recipient's `TxnLocallyComplete` or
the submitter's `TxnSubmissionComplete` is outstanding. -/
theorem C2_acceptor_delete_guard (env : AcceptorEnv) (a : Acc) (e : AcceptorEvent) :
    ((acceptorStep env e a).state = .deleteFromDisk →
      a.state = .deleteFromDisk ∨
        ((acceptorStep env e a).pendingTLC = []
          ∧ (acceptorStep env e a).tscReceived = true))
    ∧ ((acceptorStep env e a).deletesIssued ≠ a.deletesIssued →
      (acceptorStep env e a).state = .deleteFromDisk
        ∧ (acceptorStep env e a).pendingTLC = []
        ∧ (acceptorStep env e a).tscReceived = true) := by
  cases e with
  | ballot r =>
    cases r with
    | none => exact ⟨fun h => Or.inl h, fun h => absurd rfl h⟩
    | some o =>
      simp only [acceptorStep, BallotAccepted]
      split_ifs with h
      · unfold acceptorWriteToDiskStart
        constructor
        · intro hz
          simp at hz
        · intro hz
          simp at hz
      · exact ⟨fun h' => Or.inl h', fun h' => absurd rfl h'⟩
  | diskWriteDone w =>
    simp only [acceptorStep]
    split_ifs with hw
    · unfold writeDone
      split_ifs with h
      · have he := aalcStart_enters env
          { a with outcomeOnDisk := some w.1, sendToAllOnDisk := w.2 }
        exact ⟨fun hz => Or.inr (he.1 hz), fun hz => he.2 hz⟩
      · exact ⟨fun h' => Or.inl h', fun h' => absurd rfl h'⟩
    · exact ⟨fun h' => Or.inl h', fun h' => absurd rfl h'⟩
  | tlc s =>
    have hg := tlc_stepGuard s a
    exact ⟨hg.1, hg.2.1⟩
  | tsc =>
    have hg := tsc_stepGuard a
    exact ⟨hg.1, hg.2.1⟩
  | topology removed =>
    simp only [acceptorStep, AcceptorTopologyChanged]
    split_ifs with hself hsub
    · exact ⟨fun h => Or.inl h, fun h => absurd rfl h⟩
    · have hg := stepGuard_comp (tgcFilter_stepGuard removed a)
        (stepGuard_comp (foldl_tlc_stepGuard removed _) (tsc_stepGuard _))
      exact ⟨hg.1, hg.2.1⟩
    · have hg := stepGuard_comp (tgcFilter_stepGuard removed a)
        (foldl_tlc_stepGuard removed _)
      exact ⟨hg.1, hg.2.1⟩
  | diskDeleteDone =>
    simp only [acceptorStep, deletionDone]
    split_ifs with h
    · constructor
      · intro hz
        simp at hz
      · intro hz
        simp at hz
    · exact ⟨fun h' => Or.inl h', fun h' => absurd rfl h'⟩

/-- A sample acceptor context shared by the acceptor witnesses. -/
def accSampleEnv : AcceptorEnv :=
  { allocs := [{ rmId := 2, active := true }, { rmId := 3, active := true }],
    rmsRemoved := [], txnSubmitter := 9, selfRMId := 1 }

/-- An acceptor in `AwaitLocallyComplete` that has already received RM 2's
TLC, still awaits RM 3's, and has its first outcome on disk. -/
def accSampleLate : Acc :=
  { state := .awaitLocallyComplete, outcome := some { isCommit := false, payload := 1 },
    sendToAll := false, outcomeOnDisk := some { isCommit := false, payload := 1 },
    sendToAllOnDisk := false, pendingTLC := [3], tlcsReceived := [2],
    tgcRecipients := [2, 3], tscReceived := false,
    writesIssued := [({ isCommit := false, payload := 1 }, false)],
    deletesIssued := 0 }

/-- An acceptor awaiting only RM 4's TLC with the TSC already received. -/
def accSampleAwait : Acc :=
  { state := .awaitLocallyComplete, outcome := some { isCommit := true, payload := 0 },
    sendToAll := true, outcomeOnDisk := some { isCommit := true, payload := 0 },
    sendToAllOnDisk := true, pendingTLC := [4], tlcsReceived := [],
    tgcRecipients := [4], tscReceived := true,
    writesIssued := [({ isCommit := true, payload := 0 }, true)],
    deletesIssued := 0 }

/-- C2 witness: on RM 4's TLC the sample acceptor transitions to
`DeleteFromDisk`, and the guard holds at the transition. -/
theorem C2_acceptor_delete_guard_witness :
    (acceptorStep accSampleEnv (.tlc 4) accSampleAwait).state =
        AcceptorState.deleteFromDisk
    ∧ (accSampleAwait.state = .deleteFromDisk ∨
        ((acceptorStep accSampleEnv (.tlc 4) accSampleAwait).pendingTLC = []
          ∧ (acceptorStep accSampleEnv (.tlc 4) accSampleAwait).tscReceived = true)) :=
  ⟨by decide,
    (C2_acceptor_delete_guard accSampleEnv accSampleAwait (.tlc 4)).1 (by decide)⟩

/-- C1: in every acceptor state before `DeleteFromDisk` - including
`AwaitLocallyComplete` with TLCs already received - a received ballot is
handed to the accumulator, and whenever the accumulated outcome differs
from the current one the acceptor stores it, re-enters `WriteToDisk`, and
schedules the disk write of the new outcome; an equal or undetermined
accumulator result leaves the acceptor unchanged.  The conclusion places no
condition on `pendingTLC`, `tlcsReceived` or `tscReceived`: late ballots
are processed identically however many TLCs have arrived. -/
theorem C1_acceptor_late_ballots (a : Acc) (r : Option Outcome)
    (hstate : a.state = .receiveBallots ∨ a.state = .writeToDisk
      ∨ a.state = .awaitLocallyComplete) :
    (∀ o, r = some o → some o ≠ a.outcome →
      (BallotAccepted r a).outcome = some o
      ∧ (BallotAccepted r a).state = .writeToDisk
      ∧ (BallotAccepted r a).sendToAll = (a.sendToAll || o.isCommit)
      ∧ (BallotAccepted r a).writesIssued =
          a.writesIssued ++ [(o, a.sendToAll || o.isCommit)])
    ∧ ((r = none ∨ r = a.outcome) → BallotAccepted r a = a) := by
  constructor
  · rintro o rfl hne
    simp [BallotAccepted, if_pos hne, acceptorWriteToDiskStart]
  · rintro (rfl | rfl)
    · rfl
    · cases ha : a.outcome with
      | none => rfl
      | some o => simp [BallotAccepted, ha]

/-- C1 witness: the theorem applied to the sample late acceptor (awaiting
local completion, one TLC already received) and a retry ballot whose
accumulated outcome is a commit differing from the stored abort. -/
theorem C1_acceptor_late_ballots_witness :
    (accSampleLate.state = .receiveBallots ∨ accSampleLate.state = .writeToDisk
      ∨ accSampleLate.state = .awaitLocallyComplete)
    ∧ ((∀ o, (some { isCommit := true, payload := 2 } : Option Outcome) = some o →
          some o ≠ accSampleLate.outcome →
          (BallotAccepted (some { isCommit := true, payload := 2 }) accSampleLate).outcome
              = some o
          ∧ (BallotAccepted (some { isCommit := true, payload := 2 }) accSampleLate).state
              = .writeToDisk
          ∧ (BallotAccepted (some { isCommit := true, payload := 2 }) accSampleLate).sendToAll
              = (accSampleLate.sendToAll || o.isCommit)
          ∧ (BallotAccepted (some { isCommit := true, payload := 2 }) accSampleLate).writesIssued
              = accSampleLate.writesIssued
                  ++ [(o, accSampleLate.sendToAll || o.isCommit)])
        ∧ (((some { isCommit := true, payload := 2 } : Option Outcome) = none
              ∨ (some { isCommit := true, payload := 2 } : Option Outcome)
                  = accSampleLate.outcome) →
            BallotAccepted (some { isCommit := true, payload := 2 }) accSampleLate
              = accSampleLate)) :=
  ⟨by decide,
    C1_acceptor_late_ballots accSampleLate
      (some { isCommit := true, payload := 2 }) (by decide)⟩

theorem maybeDelete_dw (a : Acc) :
    (maybeDelete a).outcomeOnDisk = a.outcomeOnDisk
    ∧ (maybeDelete a).writesIssued = a.writesIssued
    ∧ (maybeDelete a).outcome = a.outcome := by
  unfold maybeDelete acceptorDeleteFromDiskStart
  split_ifs <;> exact ⟨rfl, rfl, rfl⟩

theorem tlc_dw (s : Nat) (a : Acc) :
    (TxnLocallyCompleteReceived s a).outcomeOnDisk = a.outcomeOnDisk
    ∧ (TxnLocallyCompleteReceived s a).writesIssued = a.writesIssued
    ∧ (TxnLocallyCompleteReceived s a).outcome = a.outcome := by
  unfold TxnLocallyCompleteReceived
  split_ifs with h
  · have hm := maybeDelete_dw { tlcInsert s a with
      pendingTLC := (tlcInsert s a).pendingTLC.filter (fun r => r ≠ s) }
    exact ⟨hm.1, hm.2.1, hm.2.2⟩
  · exact ⟨rfl, rfl, rfl⟩

theorem tsc_dw (a : Acc) :
    (TxnSubmissionCompleteReceived a).outcomeOnDisk = a.outcomeOnDisk
    ∧ (TxnSubmissionCompleteReceived a).writesIssued = a.writesIssued
    ∧ (TxnSubmissionCompleteReceived a).outcome = a.outcome := by
  unfold TxnSubmissionCompleteReceived
  split_ifs with h
  · exact ⟨rfl, rfl, rfl⟩
  · have hm := maybeDelete_dw { a with tscReceived := true }
    exact ⟨hm.1, hm.2.1, hm.2.2⟩

theorem foldl_tlc_dw (l : List Nat) (x : Acc) :
    (l.foldl (fun acc rm => TxnLocallyCompleteReceived rm acc) x).outcomeOnDisk
        = x.outcomeOnDisk
    ∧ (l.foldl (fun acc rm => TxnLocallyCompleteReceived rm acc) x).writesIssued
        = x.writesIssued
    ∧ (l.foldl (fun acc rm => TxnLocallyCompleteReceived rm acc) x).outcome
        = x.outcome := by
  induction l generalizing x with
  | nil => exact ⟨rfl, rfl, rfl⟩
  | cons hd tl ih =>
    have h1 := tlc_dw hd x
    have h2 := ih (TxnLocallyCompleteReceived hd x)
    exact ⟨h2.1.trans h1.1, h2.2.1.trans h1.2.1, h2.2.2.trans h1.2.2⟩

theorem topology_dw (env : AcceptorEnv) (removed : List Nat) (a : Acc) :
    (AcceptorTopologyChanged env removed a).outcomeOnDisk = a.outcomeOnDisk
    ∧ (AcceptorTopologyChanged env removed a).writesIssued = a.writesIssued
    ∧ (AcceptorTopologyChanged env removed a).outcome = a.outcome := by
  unfold AcceptorTopologyChanged
  split_ifs with hself hsub
  · exact ⟨rfl, rfl, rfl⟩
  · have h1 := foldl_tlc_dw removed
      { a with tgcRecipients := a.tgcRecipients.filter (fun r => !(removed.contains r)) }
    have h2 := tsc_dw (removed.foldl (fun acc rm => TxnLocallyCompleteReceived rm acc)
      { a with tgcRecipients := a.tgcRecipients.filter (fun r => !(removed.contains r)) })
    exact ⟨h2.1.trans h1.1, h2.2.1.trans h1.2.1, h2.2.2.trans h1.2.2⟩
  · have h1 := foldl_tlc_dw removed
      { a with tgcRecipients := a.tgcRecipients.filter (fun r => !(removed.contains r)) }
    exact ⟨h1.1, h1.2.1, h1.2.2⟩

theorem deletionDone_dw (a : Acc) :
    (deletionDone a).outcomeOnDisk = a.outcomeOnDisk
    ∧ (deletionDone a).writesIssued = a.writesIssued
    ∧ (deletionDone a).outcome = a.outcome := by
  unfold deletionDone
  split_ifs <;> exact ⟨rfl, rfl, rfl⟩

theorem aalcStart_dw (env : AcceptorEnv) (b : Acc) :
    (acceptorAwaitLocallyCompleteStart env b).outcomeOnDisk = b.outcomeOnDisk
    ∧ (acceptorAwaitLocallyCompleteStart env b).writesIssued = b.writesIssued := by
  have hm := maybeDelete_dw (acceptorAwaitLocallyCompleteFields env b)
  exact ⟨hm.1, hm.2.1⟩

/-- Every reachable acceptor state's `outcomeOnDisk`, when set, was
scheduled as a 2B disk write (with its sendToAll flag). -/
theorem reachable_onDisk_issued (env : AcceptorEnv) {a : Acc}
    (hr : AcceptorReachable env a) :
    ∀ o, a.outcomeOnDisk = some o → ∃ s, (o, s) ∈ a.writesIssued := by
  induction hr with
  | start => intro o ho; cases ho
  | step e hr ih =>
    rename_i b
    cases e with
    | ballot r =>
      intro o ho
      cases r with
      | none => exact ih o ho
      | some o' =>
        simp only [acceptorStep, BallotAccepted] at ho ⊢
        split_ifs at ho ⊢ with h
        · unfold acceptorWriteToDiskStart at ho ⊢
          simp only at ho ⊢
          obtain ⟨s, hs⟩ := ih o ho
          exact ⟨s, List.mem_append_left _ hs⟩
        · exact ih o ho
    | diskWriteDone w =>
      intro o ho
      simp only [acceptorStep] at ho ⊢
      split_ifs at ho ⊢ with hw
      · unfold writeDone at ho ⊢
        split_ifs at ho ⊢ with h
        · have hdw := aalcStart_dw env { b with outcomeOnDisk := some w.1, sendToAllOnDisk := w.2 }
          rw [hdw.1] at ho
          rw [hdw.2]
          simp only at ho
          cases ho
          exact ⟨w.2, hw⟩
        · exact ih o ho
      · exact ih o ho
    | tlc s =>
      intro o ho
      have h := tlc_dw s b
      rw [acceptorStep] at ho ⊢
      rw [h.1] at ho
      rw [h.2.1]
      exact ih o ho
    | tsc =>
      intro o ho
      have h := tsc_dw b
      rw [acceptorStep] at ho ⊢
      rw [h.1] at ho
      rw [h.2.1]
      exact ih o ho
    | topology removed =>
      intro o ho
      have h := topology_dw env removed b
      rw [acceptorStep] at ho ⊢
      rw [h.1] at ho
      rw [h.2.1]
      exact ih o ho
    | diskDeleteDone =>
      intro o ho
      have h := deletionDone_dw b
      rw [acceptorStep] at ho ⊢
      rw [h.1] at ho
      rw [h.2.1]
      exact ih o ho

theorem aalcStart_state (env : AcceptorEnv) (b : Acc) :
    (acceptorAwaitLocallyCompleteStart env b).state = .awaitLocallyComplete
    ∨ (acceptorAwaitLocallyCompleteStart env b).state = .deleteFromDisk := by
  unfold acceptorAwaitLocallyCompleteStart maybeDelete acceptorDeleteFromDiskStart
  split_ifs with h
  · exact Or.inr rfl
  · exact Or.inl rfl

/-- C9: a 2B disk-write completion updates the acceptor only if the written
outcome is still the current one and the machine is still in `WriteToDisk`
(in which case `outcomeOnDisk` and `sendToAllOnDisk` are recorded and the
machine advances); a superseded completion leaves the state bit-for-bit
unchanged.  Consequently, over every reachable state, `outcomeOnDisk` is
an outcome some disk write was scheduled for, and a step schedules a write
only for the outcome that is current as the write begins. -/
theorem C9_writeDone_superseded (env : AcceptorEnv) (w : Outcome × Bool) (a : Acc)
    (hr : AcceptorReachable env a) :
    (¬(a.outcome = some w.1 ∧ a.state = .writeToDisk) → writeDone env w a = a)
    ∧ (a.outcome = some w.1 → a.state = .writeToDisk →
        (writeDone env w a).outcomeOnDisk = some w.1
        ∧ (writeDone env w a).sendToAllOnDisk = w.2
        ∧ (writeDone env w a).state ≠ .writeToDisk)
    ∧ (∀ o, a.outcomeOnDisk = some o → ∃ s, (o, s) ∈ a.writesIssued)
    ∧ (∀ e, ∀ p ∈ (acceptorStep env e a).writesIssued,
        p ∈ a.writesIssued ∨ some p.1 = (acceptorStep env e a).outcome) := by
  refine ⟨?_, ?_, reachable_onDisk_issued env hr, ?_⟩
  · intro hns
    unfold writeDone
    rw [if_neg hns]
  · intro ho hs
    unfold writeDone
    rw [if_pos ⟨ho, hs⟩]
    have hdw := aalcStart_dw env { a with outcomeOnDisk := some w.1, sendToAllOnDisk := w.2 }
    have hsd : (acceptorAwaitLocallyCompleteFields env
        { a with outcomeOnDisk := some w.1, sendToAllOnDisk := w.2 }).sendToAllOnDisk
        = w.2 := rfl
    refine ⟨hdw.1, ?_, ?_⟩
    · have hm := maybeDelete_dw (acceptorAwaitLocallyCompleteFields env
        { a with outcomeOnDisk := some w.1, sendToAllOnDisk := w.2 })
      show (maybeDelete _).sendToAllOnDisk = w.2
      unfold maybeDelete acceptorDeleteFromDiskStart
      split_ifs <;> exact hsd
    · rcases aalcStart_state env { a with outcomeOnDisk := some w.1, sendToAllOnDisk := w.2 }
        with h | h <;> rw [h] <;> intro hc <;> cases hc
  · intro e p hp
    cases e with
    | ballot r =>
      cases r with
      | none => exact Or.inl hp
      | some o =>
        simp only [acceptorStep, BallotAccepted] at hp ⊢
        split_ifs at hp ⊢ with h
        · unfold acceptorWriteToDiskStart at hp ⊢
          simp only at hp ⊢
          rcases List.mem_append.mp hp with hold | hnew
          · exact Or.inl hold
          · rcases List.mem_singleton.mp hnew with rfl
            exact Or.inr rfl
        · exact Or.inl hp
    | diskWriteDone w' =>
      simp only [acceptorStep] at hp ⊢
      split_ifs at hp ⊢ with hw
      · unfold writeDone at hp ⊢
        split_ifs at hp ⊢ with h
        · have hdw := aalcStart_dw env { a with outcomeOnDisk := some w'.1, sendToAllOnDisk := w'.2 }
          rw [hdw.2] at hp
          exact Or.inl hp
        · exact Or.inl hp
      · exact Or.inl hp
    | tlc s =>
      have h := tlc_dw s a
      rw [acceptorStep] at hp ⊢
      rw [h.2.1] at hp
      exact Or.inl hp
    | tsc =>
      have h := tsc_dw a
      rw [acceptorStep] at hp ⊢
      rw [h.2.1] at hp
      exact Or.inl hp
    | topology removed =>
      have h := topology_dw env removed a
      rw [acceptorStep] at hp ⊢
      rw [h.2.1] at hp
      exact Or.inl hp
    | diskDeleteDone =>
      have h := deletionDone_dw a
      rw [acceptorStep] at hp ⊢
      rw [h.2.1] at hp
      exact Or.inl hp

/-- C9 witness: on the freshly created acceptor (reachable by `start`), a
stray completion for an outcome that is not current changes nothing. -/
theorem C9_writeDone_superseded_witness :
    AcceptorReachable accSampleEnv newAcceptor
    ∧ writeDone accSampleEnv ({ isCommit := true, payload := 5 }, true) newAcceptor
        = newAcceptor :=
  ⟨AcceptorReachable.start,
    (C9_writeDone_superseded accSampleEnv ({ isCommit := true, payload := 5 }, true)
      newAcceptor AcceptorReachable.start).1 (by decide)⟩

end Paxos

/-! ## Topology transmogrifier (src/topologytransmogrifier/)

`setTarget` (topologytransmogrifier.go lines 99-152) and the `Quiet` task's
`IsValidTask` (task4quiet.go lines 21-27). -/

namespace TopologyTransmogrifier

/-- A cluster configuration, as consulted by `setTarget`.
Modelled from the spec: `configuration.go` is not among the sources.  Per
§3 a configuration holds `{clusterId, clusterUUId, version, F, maxRMCount,
hosts, ...}`; `clusterUUId` is generated internally when the first topology
commits, while the remaining fields are supplied externally, so
`EqualExternally` compares everything except `clusterUUId`. -/
structure Configuration where
  clusterId : String
  clusterUUId : Nat
  version : Nat
  maxRMCount : Nat
  f : Nat
  hosts : List String
deriving DecidableEq

/-- Modelled from the spec: equality of the externally supplied content of a
configuration (every field but the internally generated `clusterUUId`). -/
def EqualExternally (a b : Configuration) : Bool :=
  a.clusterId == b.clusterId && a.version == b.version &&
    a.maxRMCount == b.maxRMCount && a.f == b.f && a.hosts == b.hosts

/-- The transmogrifier state visible to `setTarget`: the active topology and
the current task, the latter represented by its target configuration
(`currentTask.TargetConfig()`). -/
structure TTState where
  activeTopology : Option Configuration
  currentTask : Option Configuration
deriving DecidableEq

/-- `setTarget` compares against the current task's target when a task
exists, otherwise against the active topology. -/
def versusOf (tt : TTState) : Option Configuration :=
  match tt.currentTask with
  | some t => some t
  | none => tt.activeTopology

/-- `TopologyTransmogrifier.setTarget`: returns the state after the call and
the error, if any.  The Go method mutates nothing before returning an error,
which the pair result makes explicit. -/
def setTarget (tt : TTState) (targetConfig : Configuration) : TTState × Option String :=
  match versusOf tt with
  | none => ({ tt with currentTask := some targetConfig }, none)
  | some versusConfig =>
    if targetConfig.clusterId ≠ versusConfig.clusterId ∧ 0 < versusConfig.clusterId.length then
      (tt, some "Illegal config change: ClusterId")
    else if targetConfig.clusterUUId ≠ 0 ∧ versusConfig.clusterUUId ≠ 0 ∧
        targetConfig.clusterUUId ≠ versusConfig.clusterUUId then
      (tt, some "Illegal config change: ClusterUUId")
    else if targetConfig.maxRMCount ≠ versusConfig.maxRMCount ∧ versusConfig.version ≠ 0 then
      (tt, some "Illegal config change: MaxRMCount")
    else if EqualExternally targetConfig versusConfig then
      (tt, none)
    else if targetConfig.version = versusConfig.version then
      (tt, some "Illegal config change: Version not increased")
    else if targetConfig.version < versusConfig.version then
      (tt, some "Illegal config change: newer version already seen")
    else
      ({ tt with currentTask := some targetConfig }, none)

/-- The slice of a `NextConfiguration` consulted by `quiet.IsValidTask`:
its version, the `InstalledOnNew` barrier flag and the set of RMIds
recorded quiet (the Go map modelled by list membership). -/
structure NextConfiguration where
  version : Nat
  installedOnNew : Bool
  quietRMIds : List Nat
deriving DecidableEq

/-- The slice of the active topology consulted by `quiet.IsValidTask`. -/
structure Topology where
  clusterId : String
  nextConfiguration : Option NextConfiguration
deriving DecidableEq

/-- `quiet.IsValidTask` (task4quiet.go lines 21-27): `self` is
`task.connectionManager.RMId`, `targetVersion` is `task.targetConfig.Version`. -/
def IsValidTask (active : Option Topology) (targetVersion : Nat) (self : Nat) : Bool :=
  match active with
  | none => false
  | some a =>
    decide (0 < a.clusterId.length) &&
      match a.nextConfiguration with
      | none => false
      | some next =>
        next.version == targetVersion && next.installedOnNew &&
          !(next.quietRMIds.contains self)

/-- The C5 claim's validity condition, stated from the spec's words: the
active topology's `nextConfiguration` exists with the task's target version,
`InstalledOnNew` is set, and `QuietRMIds` does not contain this node - with
no condition on the active topology's `clusterId`. -/
def quietValidSpec (active : Option Topology) (targetVersion : Nat) (self : Nat) : Bool :=
  match active with
  | none => false
  | some a =>
    match a.nextConfiguration with
    | none => false
    | some next =>
      next.version == targetVersion && next.installedOnNew &&
        !(next.quietRMIds.contains self)

end TopologyTransmogrifier

/-- C4: `setTarget` rejects - returning an error and leaving both
`currentTask` and `activeTopology` unchanged - a target that changes the
clusterId while the compared-against clusterId is non-empty, or whose
non-zero clusterUUId conflicts with a non-zero existing one, or that changes
maxRMCount while the compared-against version is positive, or whose version
is at most the compared-against version with different external content; a
target whose external content equals the compared-against configuration
(and, per the claim's own precedence, does not raise one of the listed
errors - external content excludes the clusterUUId) succeeds silently:
`nil` is returned and no task is created. -/
theorem C4_setTarget_rejects (tt : TopologyTransmogrifier.TTState)
    (T v : TopologyTransmogrifier.Configuration)
    (hv : TopologyTransmogrifier.versusOf tt = some v) :
    (T.clusterId ≠ v.clusterId ∧ 0 < v.clusterId.length →
      ∃ e, TopologyTransmogrifier.setTarget tt T = (tt, some e))
    ∧ (T.clusterUUId ≠ 0 ∧ v.clusterUUId ≠ 0 ∧ T.clusterUUId ≠ v.clusterUUId →
      ∃ e, TopologyTransmogrifier.setTarget tt T = (tt, some e))
    ∧ (T.maxRMCount ≠ v.maxRMCount ∧ v.version ≠ 0 →
      ∃ e, TopologyTransmogrifier.setTarget tt T = (tt, some e))
    ∧ (T.version ≤ v.version → TopologyTransmogrifier.EqualExternally T v = false →
      ∃ e, TopologyTransmogrifier.setTarget tt T = (tt, some e))
    ∧ (TopologyTransmogrifier.EqualExternally T v = true →
      ¬(T.clusterUUId ≠ 0 ∧ v.clusterUUId ≠ 0 ∧ T.clusterUUId ≠ v.clusterUUId) →
      TopologyTransmogrifier.setTarget tt T = (tt, none)) := by
  have hext : TopologyTransmogrifier.EqualExternally T v = true →
      T.clusterId = v.clusterId ∧ T.version = v.version ∧ T.maxRMCount = v.maxRMCount := by
    intro h
    simp only [TopologyTransmogrifier.EqualExternally, Bool.and_eq_true, beq_iff_eq] at h
    exact ⟨h.1.1.1.1, h.1.1.1.2, h.1.1.2⟩
  refine ⟨?_, ?_, ?_, ?_, ?_⟩ <;>
    simp only [TopologyTransmogrifier.setTarget, hv]
  · intro h
    rw [if_pos h]
    exact ⟨_, rfl⟩
  · intro h
    by_cases h1 : T.clusterId ≠ v.clusterId ∧ 0 < v.clusterId.length
    · rw [if_pos h1]; exact ⟨_, rfl⟩
    · rw [if_neg h1, if_pos h]; exact ⟨_, rfl⟩
  · intro h
    by_cases h1 : T.clusterId ≠ v.clusterId ∧ 0 < v.clusterId.length
    · rw [if_pos h1]; exact ⟨_, rfl⟩
    by_cases h2 : T.clusterUUId ≠ 0 ∧ v.clusterUUId ≠ 0 ∧ T.clusterUUId ≠ v.clusterUUId
    · rw [if_neg h1, if_pos h2]; exact ⟨_, rfl⟩
    · rw [if_neg h1, if_neg h2, if_pos h]; exact ⟨_, rfl⟩
  · intro hle hne
    by_cases h1 : T.clusterId ≠ v.clusterId ∧ 0 < v.clusterId.length
    · rw [if_pos h1]; exact ⟨_, rfl⟩
    by_cases h2 : T.clusterUUId ≠ 0 ∧ v.clusterUUId ≠ 0 ∧ T.clusterUUId ≠ v.clusterUUId
    · rw [if_neg h1, if_pos h2]; exact ⟨_, rfl⟩
    by_cases h3 : T.maxRMCount ≠ v.maxRMCount ∧ v.version ≠ 0
    · rw [if_neg h1, if_neg h2, if_pos h3]; exact ⟨_, rfl⟩
    rw [if_neg h1, if_neg h2, if_neg h3, if_neg (by simp [hne])]
    by_cases h5 : T.version = v.version
    · rw [if_pos h5]; exact ⟨_, rfl⟩
    · rw [if_neg h5, if_pos (lt_of_le_of_ne hle h5)]; exact ⟨_, rfl⟩
  · intro heq hnc
    have h := hext heq
    rw [if_neg (fun hc => hc.1 h.1), if_neg hnc, if_neg (fun hc => hc.1 h.2.2),
      if_pos heq]

/-- C4 witness: a clusterId change against a non-empty clusterId is
rejected with the state unchanged. -/
theorem C4_setTarget_witness :
    TopologyTransmogrifier.versusOf
        { activeTopology := some { clusterId := "c", clusterUUId := 1, version := 1,
                                   maxRMCount := 3, f := 1, hosts := ["h"] },
          currentTask := none } =
      some { clusterId := "c", clusterUUId := 1, version := 1,
             maxRMCount := 3, f := 1, hosts := ["h"] }
    ∧ ("d" ≠ "c" ∧ 0 < "c".length)
    ∧ ∃ e, TopologyTransmogrifier.setTarget
        { activeTopology := some { clusterId := "c", clusterUUId := 1, version := 1,
                                   maxRMCount := 3, f := 1, hosts := ["h"] },
          currentTask := none }
        { clusterId := "d", clusterUUId := 1, version := 2,
          maxRMCount := 3, f := 1, hosts := ["h"] } =
      ({ activeTopology := some { clusterId := "c", clusterUUId := 1, version := 1,
                                  maxRMCount := 3, f := 1, hosts := ["h"] },
         currentTask := none }, some e) :=
  ⟨rfl, by decide,
    (C4_setTarget_rejects
      { activeTopology := some { clusterId := "c", clusterUUId := 1, version := 1,
                                 maxRMCount := 3, f := 1, hosts := ["h"] },
        currentTask := none }
      { clusterId := "d", clusterUUId := 1, version := 2,
        maxRMCount := 3, f := 1, hosts := ["h"] }
      { clusterId := "c", clusterUUId := 1, version := 1,
        maxRMCount := 3, f := 1, hosts := ["h"] } rfl).1 (by decide)⟩

/-- C5 counterexample: the claim's "if and only if" fails because
`quiet.IsValidTask` additionally requires the active topology's clusterId to
be non-empty.  At an active topology with an empty clusterId whose
`nextConfiguration` matches the target version, is installed on new, and has
no quiet record for this node, the spec-side condition holds but
`IsValidTask` returns `false`. -/
theorem C5_quiet_counterexample :
    TopologyTransmogrifier.IsValidTask
        (some { clusterId := "",
                nextConfiguration := some { version := 5, installedOnNew := true,
                                            quietRMIds := [] } }) 5 1 = false
    ∧ TopologyTransmogrifier.quietValidSpec
        (some { clusterId := "",
                nextConfiguration := some { version := 5, installedOnNew := true,
                                            quietRMIds := [] } }) 5 1 = true := by
  constructor <;> rfl

/-- C5 (amended): `quiet.IsValidTask` returns `true` if and only if the
active topology exists with a non-empty clusterId and its nextConfiguration
exists with version equal to the task's target configuration version,
`InstalledOnNew` set, and `QuietRMIds` not containing this node's RMId. -/
theorem C5_quiet_IsValidTask (active : Option TopologyTransmogrifier.Topology)
    (targetVersion self : Nat) :
    TopologyTransmogrifier.IsValidTask active targetVersion self = true ↔
      ∃ a next, active = some a ∧ 0 < a.clusterId.length
        ∧ a.nextConfiguration = some next
        ∧ next.version = targetVersion ∧ next.installedOnNew = true
        ∧ self ∉ next.quietRMIds := by
  cases active with
  | none => simp [TopologyTransmogrifier.IsValidTask]
  | some a =>
    cases hnc : a.nextConfiguration with
    | none => simp [TopologyTransmogrifier.IsValidTask, hnc]
    | some next =>
      simp only [TopologyTransmogrifier.IsValidTask, hnc, Bool.and_eq_true,
        decide_eq_true_eq, beq_iff_eq, Bool.not_eq_true', Option.some.injEq]
      constructor
      · rintro ⟨hlen, ⟨hver, hinst⟩, hquiet⟩
        exact ⟨a, next, rfl, hlen, hnc, hver, hinst, by
          simpa [List.contains_iff_exists_mem_beq] using hquiet⟩
      · rintro ⟨a', next', ha, hlen, hnc', hver, hinst, hquiet⟩
        cases ha
        rw [hnc] at hnc'
        cases hnc'
        refine ⟨hlen, ⟨hver, hinst⟩, ?_⟩
        simpa [List.contains_iff_exists_mem_beq] using hquiet

/-! ## Proposer manager (src/paxos/proposermanager.go)

`ProposerManager.TxnReceived` (lines 166-226), `AllocForRMId` (478-487) and
`MakeAbortBallots` (489-499).  RMIds, boot counts and topology versions are
modelled as `Nat`. -/

namespace Paxos

/-- `msgs.Allocation`: rmId, the boot count the txn was prepared for
(`active`, 0 meaning passive), and the indices of this RM's actions. -/
structure Allocation where
  rmId : Nat
  active : Nat
  actionIndices : List Nat
deriving DecidableEq

/-- The slice of a transaction capnp that `TxnReceived` consults; `actions`
lists each action's VarId. -/
structure Txn where
  topologyVersion : Nat
  isTopology : Bool
  twoFInc : Nat
  allocations : List Allocation
  actions : List (List Nat)
deriving DecidableEq

/-- The slice of `configuration.Topology` that `TxnReceived` consults. -/
structure PMTopology where
  version : Nat
  hasNextConfiguration : Bool
  rmsRemoved : List Nat
deriving DecidableEq

inductive ProposerMode
  | ProposerActiveVoter
  | ProposerActiveLearner
  | ProposerPassiveLearner
deriving DecidableEq

/-- `AllocForRMId`: the first allocation for `rmId`, if any. -/
def AllocForRMId (txn : Txn) (rmId : Nat) : Option Allocation :=
  txn.allocations.find? (fun alloc => alloc.rmId == rmId)

/-- `MakeAbortBallots`: one `Ballot(AbortDeadlock, clock = nil)` per action
index allocated to this node, built through `NewBallotBuilder .. ToBallot`. -/
def MakeAbortBallots (txn : Txn) (alloc : Allocation) :
    Except String (List TxnEngine.Ballot) :=
  alloc.actionIndices.mapM (fun idx =>
    TxnEngine.ToBallot
      (TxnEngine.NewBallotBuilder (txn.actions.getD idx [])
        TxnEngine.Vote.AbortDeadlock none []))

/-- What `TxnReceived` does with an inbound transaction that has no
existing proposer record. -/
structure TxnReceivedEffect where
  mode : ProposerMode
  skipPhase1 : Bool
  abortBallots : List TxnEngine.Ballot
  startedProposals : Bool
deriving DecidableEq

/-- The `accept` computation of `TxnReceived` (lines 177-208): with no
topology every transaction is accepted; otherwise the topology version must
match, a pending next configuration admits only topology transactions, the
sender must not be in `RMsRemoved`, and this node's allocation (the loop
breaks at the first allocation for `pm.RMId`; absence leaves `accept`
false) must have `active` equal to this node's boot count. -/
def txnReceivedAccept (topology : Option PMTopology) (rmId bootCount sender : Nat)
    (txn : Txn) : Bool :=
  match topology with
  | none => true
  | some top =>
    let accept := top.version == txn.topologyVersion
    let accept := if accept && top.hasNextConfiguration then txn.isTopology else accept
    if accept then
      if top.rmsRemoved.contains sender then false
      else
        match AllocForRMId txn rmId with
        | some alloc => alloc.active == bootCount
        | none => false
    else false

/-- `ProposerManager.TxnReceived`, the branch where no proposer record
exists (lines 174-225).  On accept an `ActiveVoter` proposer is created; on
reject `MakeAbortBallots(txn, AllocForRMId(txnCap, pm.RMId))` dereferences
the allocation, so a transaction carrying no allocation for this node
panics (nil pointer dereference), and otherwise Paxos proposals are started
with `skipPhase1 = false` and an `ActiveLearner` proposer is created. -/
def TxnReceived (topology : Option PMTopology) (rmId bootCount sender : Nat)
    (txn : Txn) : Except String TxnReceivedEffect :=
  if txnReceivedAccept topology rmId bootCount sender txn then
    .ok { mode := .ProposerActiveVoter, skipPhase1 := false,
          abortBallots := [], startedProposals := false }
  else
    match AllocForRMId txn rmId with
    | none => .error "runtime: nil pointer dereference in MakeAbortBallots"
    | some alloc =>
      match MakeAbortBallots txn alloc with
      | .error e => .error e
      | .ok ballots =>
        .ok { mode := .ProposerActiveLearner, skipPhase1 := false,
              abortBallots := ballots, startedProposals := true }

theorem makeAbortBallots_ok (txn : Txn) (alloc : Allocation) :
    MakeAbortBallots txn alloc =
      Except.ok (alloc.actionIndices.map (fun idx =>
        { VarUUId := txn.actions.getD idx []
          Data := some { varId := txn.actions.getD idx [], clock := [],
                         subscribers := [], vote := .abortDeadlock }
          VoteCap := some .abortDeadlock
          Clock := some []
          Subscribers := []
          Vote := .AbortDeadlock })) := by
  unfold MakeAbortBallots
  induction alloc.actionIndices with
  | nil => rfl
  | cons hd tl ih =>
    rw [List.map_cons, List.mapM_cons, ih]
    rfl

end Paxos

/-- C3 counterexample: the claim's "in every other case" clause fails.  A
transaction whose topology version mismatches the current one and which
carries no allocation for this node is rejected, but `TxnReceived` then
calls `MakeAbortBallots` with the nil result of `AllocForRMId` and panics
instead of creating an `ActiveLearner` proposer. -/
theorem C3_txnReceived_counterexample :
    Paxos.TxnReceived
        (some { version := 1, hasNextConfiguration := false, rmsRemoved := [] })
        5 1 9
        { topologyVersion := 2, isTopology := false, twoFInc := 3,
          allocations := [{ rmId := 9, active := 1, actionIndices := [0] }],
          actions := [[3]] } =
      Except.error "runtime: nil pointer dereference in MakeAbortBallots" :=
  rfl

/-- C3 (amended): for an inbound transaction with no existing proposer
record, given a current topology and an allocation for this node,
`TxnReceived` creates an `ActiveVoter` proposer exactly when the
transaction's topology version equals the current version, any pending next
configuration admits it only as a topology transaction, the sender is not
in RMsRemoved, and this node's allocation has `active` equal to the current
boot count; in every other such case it synthesises one AbortDeadlock
ballot per allocated action, starts Paxos proposals without skipping
phase 1, and creates the proposer in `ActiveLearner` mode.  (When the
transaction carries no allocation for this node, rejection instead
panics in `MakeAbortBallots`.) -/
theorem C3_txnReceived_admission (top : Paxos.PMTopology)
    (rmId bootCount sender : Nat) (txn : Paxos.Txn) (alloc : Paxos.Allocation)
    (halloc : Paxos.AllocForRMId txn rmId = some alloc) :
    ((∃ e, Paxos.TxnReceived (some top) rmId bootCount sender txn = Except.ok e
        ∧ e.mode = .ProposerActiveVoter) ↔
      (top.version = txn.topologyVersion
        ∧ (top.hasNextConfiguration = true → txn.isTopology = true)
        ∧ sender ∉ top.rmsRemoved
        ∧ alloc.active = bootCount))
    ∧ (¬(top.version = txn.topologyVersion
          ∧ (top.hasNextConfiguration = true → txn.isTopology = true)
          ∧ sender ∉ top.rmsRemoved
          ∧ alloc.active = bootCount) →
        ∃ ballots, Paxos.TxnReceived (some top) rmId bootCount sender txn =
            Except.ok { mode := .ProposerActiveLearner, skipPhase1 := false,
                        abortBallots := ballots, startedProposals := true }
          ∧ ballots.length = alloc.actionIndices.length
          ∧ ∀ b ∈ ballots, b.Vote = TxnEngine.Vote.AbortDeadlock) := by
  have haccept : Paxos.txnReceivedAccept (some top) rmId bootCount sender txn = true ↔
      (top.version = txn.topologyVersion
        ∧ (top.hasNextConfiguration = true → txn.isTopology = true)
        ∧ sender ∉ top.rmsRemoved
        ∧ alloc.active = bootCount) := by
    simp only [Paxos.txnReceivedAccept, halloc]
    cases h1 : (top.version == txn.topologyVersion) <;>
      cases h2 : top.hasNextConfiguration <;>
        cases h3 : txn.isTopology <;>
          cases h4 : top.rmsRemoved.contains sender <;>
            simp_all [list_contains_iff_mem, beq_iff_eq]
  constructor
  · constructor
    · rintro ⟨e, he, hmode⟩
      by_contra hc
      rw [← haccept] at hc
      simp only [Bool.not_eq_true] at hc
      rw [Paxos.TxnReceived, hc] at he
      simp only [Bool.false_eq_true, if_false, halloc,
        Paxos.makeAbortBallots_ok] at he
      cases he
      simp at hmode
    · intro hcond
      rw [← haccept] at hcond
      refine ⟨{ mode := .ProposerActiveVoter, skipPhase1 := false,
                abortBallots := [], startedProposals := false }, ?_, rfl⟩
      rw [Paxos.TxnReceived, hcond]
      simp
  · intro hcond
    rw [← haccept] at hcond
    simp only [Bool.not_eq_true] at hcond
    refine ⟨alloc.actionIndices.map (fun idx =>
        { VarUUId := txn.actions.getD idx []
          Data := some { varId := txn.actions.getD idx [], clock := [],
                         subscribers := [], vote := .abortDeadlock }
          VoteCap := some .abortDeadlock
          Clock := some []
          Subscribers := []
          Vote := .AbortDeadlock }), ?_, by simp, ?_⟩
    · rw [Paxos.TxnReceived, hcond]
      simp only [Bool.false_eq_true, if_false, halloc, Paxos.makeAbortBallots_ok]
    · intro b hb
      rw [List.mem_map] at hb
      obtain ⟨idx, _, rfl⟩ := hb
      rfl

/-- C3 witness: a transaction prepared for boot count 7 of this node, with
matching topology version, no pending configuration and an admissible
sender, is accepted and voted on: an `ActiveVoter` proposer is created. -/
theorem C3_txnReceived_witness :
    ∃ e, Paxos.TxnReceived
        (some { version := 1, hasNextConfiguration := false, rmsRemoved := [] })
        5 7 2
        { topologyVersion := 1, isTopology := false, twoFInc := 3,
          allocations := [{ rmId := 5, active := 7, actionIndices := [0] }],
          actions := [[3]] } = Except.ok e
      ∧ e.mode = .ProposerActiveVoter :=
  ((C3_txnReceived_admission
      { version := 1, hasNextConfiguration := false, rmsRemoved := [] } 5 7 2
      { topologyVersion := 1, isTopology := false, twoFInc := 3,
        allocations := [{ rmId := 5, active := 7, actionIndices := [0] }],
        actions := [[3]] }
      { rmId := 5, active := 7, actionIndices := [0] } rfl).1).mpr (by decide)

/-! ## Var idleness (src/txnengine/var.go)

`Var.isIdle` (var.go lines 229-231) and `maybeMakeInactive` (223-227). -/

namespace TxnEngine

/-- A frame of a var's chain, as far as idleness is concerned.
Modelled from the spec: `frame.go` is not among the sources; §3 defines a
frame as "idle" iff empty of pending work, counted here by pending reads
and pending writes/readwrites. -/
structure Frame where
  pendingReads : Nat
  pendingWrites : Nat
deriving DecidableEq

def Frame.isIdle (f : Frame) : Bool :=
  f.pendingReads == 0 && f.pendingWrites == 0

/-- The slice of `Var` (var.go lines 20-32) that decides idleness:
`writeInProgress` is an optional queued continuation (`true` models
non-nil), `curFrame` the head frame, and `subscriptions` the ids of
attached subscribers (the `subscriptions *Subscriptions` field, which
`isIdle` does not consult). -/
structure Var where
  writeInProgress : Bool
  curFrame : Frame
  subscriptions : List Nat
deriving DecidableEq

/-- `Var.isIdle` (var.go lines 229-231):
`v.writeInProgress == nil && v.curFrame.isIdle()`. -/
def Var.isIdle (v : Var) : Bool :=
  !v.writeInProgress && v.curFrame.isIdle

/-- `Var.maybeMakeInactive` (var.go lines 223-227): whether the var is
handed back to the `VarManager` (`vm.SetInactive`, eviction). -/
def Var.maybeMakeInactive (v : Var) : Bool :=
  v.isIdle

/-- The C8 claim's idleness condition, stated from the spec's words:
no write in progress, current frame idle, and no subscriber attached. -/
def varIdleSpec (v : Var) : Bool :=
  !v.writeInProgress && v.curFrame.isIdle && v.subscriptions.isEmpty

end TxnEngine

/-- C8 counterexample: the claim's "if and only if" fails because
`Var.isIdle` never consults the subscribers.  A var with no write in
progress, an idle frame, and one attached subscriber is idle per the code
(and `maybeMakeInactive` hands it to the `VarManager` for eviction) while
the claim's three-way condition is false. -/
theorem C8_var_isIdle_counterexample :
    TxnEngine.Var.isIdle
        { writeInProgress := false,
          curFrame := { pendingReads := 0, pendingWrites := 0 },
          subscriptions := [5] } = true
    ∧ TxnEngine.Var.maybeMakeInactive
        { writeInProgress := false,
          curFrame := { pendingReads := 0, pendingWrites := 0 },
          subscriptions := [5] } = true
    ∧ TxnEngine.varIdleSpec
        { writeInProgress := false,
          curFrame := { pendingReads := 0, pendingWrites := 0 },
          subscriptions := [5] } = false :=
  ⟨rfl, rfl, rfl⟩

/-- C8 (amended): `Var.isIdle()` returns true if and only if
`writeInProgress` is nil and the current frame is idle - the attached-
subscriber condition does not appear in this source's `isIdle` - and a var
is handed back to the `VarManager` for eviction exactly when `isIdle()`
holds. -/
theorem C8_var_isIdle (v : TxnEngine.Var) :
    (v.isIdle = true ↔
      (v.writeInProgress = false ∧ v.curFrame.isIdle = true))
    ∧ v.maybeMakeInactive = v.isIdle := by
  constructor
  · simp [TxnEngine.Var.isIdle]
  · rfl

/-- C10: for ascending duplicate-free `uint32` lists `a` and `b`,
`mergeOnlies a b` is ascending and duplicate-free (strictly sorted), its
elements are exactly the union of those of `a` and `b`, and consequently
`mergeOnlies a b` and `mergeOnlies b a` agree as sets; the second copy of
the function computes the same list. -/
theorem C10_mergeOnlies_sorted_union (a b : List Nat)
    (ha : List.Sorted (· < ·) a) (hb : List.Sorted (· < ·) b) :
    List.Sorted (· < ·) (Client.mergeOnlies a b)
    ∧ (∀ x, x ∈ Client.mergeOnlies a b ↔ x ∈ a ∨ x ∈ b)
    ∧ (∀ x, x ∈ Client.mergeOnlies a b ↔ x ∈ Client.mergeOnlies b a)
    ∧ Client.mergeOnliesV2 a b = Client.mergeOnlies a b := by
  refine ⟨Client.mergeOnlies_sorted a b ha hb, Client.mergeOnlies_mem a b, ?_,
    Client.mergeOnliesV2_eq a b⟩
  intro x
  rw [Client.mergeOnlies_mem a b x, Client.mergeOnlies_mem b a x]
  tauto

/-- C10 witness: the theorem applied at the concrete lists `[0, 2]`, `[1, 2]`. -/
theorem C10_mergeOnlies_witness :
    List.Sorted (· < ·) [0, 2] ∧ List.Sorted (· < ·) [1, 2]
    ∧ (List.Sorted (· < ·) (Client.mergeOnlies [0, 2] [1, 2])
       ∧ (∀ x, x ∈ Client.mergeOnlies [0, 2] [1, 2] ↔ x ∈ [0, 2] ∨ x ∈ [1, 2])
       ∧ (∀ x, x ∈ Client.mergeOnlies [0, 2] [1, 2] ↔ x ∈ Client.mergeOnlies [1, 2] [0, 2])
       ∧ Client.mergeOnliesV2 [0, 2] [1, 2] = Client.mergeOnlies [0, 2] [1, 2]) :=
  ⟨by decide, by decide,
    C10_mergeOnlies_sorted_union [0, 2] [1, 2] (by decide) (by decide)⟩

end Server
